import Mathlib

/-!
Shallow embedding of the bus-factor / coverage scoring engine of Backup Boss,
translated from the POST handler in `src/unnamed/part_006` (the final version
of `src/app/api/v1/analysis/bus-factor/route.ts` as developed there, lines
775-1062).  The engine is a pure aggregation over a snapshot of runbooks
("procedures") and a per-runbook set of verified user ids; the surrounding
HTTP/DB plumbing is out of scope.

Modelling conventions:
- JS `Set<string>` is modelled as a duplicate-free `List String` in insertion
  order (`insertUnique` mirrors `Set.add`; `Array.from(set)[0]` is `List.headD`).
- JS numbers: the verified-people counts are set sizes (`Nat`); the coverage
  ratio `covered / total` is modelled as an exact rational (`ℚ`).  For the
  magnitudes the engine handles the IEEE double of `covered / total` compares
  against the literals `0.5` and `0.8` exactly as the rational does.
- `runbookTraining : Map<string, Set<string>>` (keyed by runbook id, every
  catalog id present) is modelled as a total function `String → List String`;
  runbook ids are distinct (primary key of the `runbooks` table).
- Risk levels are the literal strings `'low' | 'high' | 'critical'` of the
  source, not an abstract enum, so that the output contract over the string
  enum is a real statement.
-/

/-- The fixed category enum `z.enum(['operations', 'finance',
'client_management', 'vendor_relations'])` (part_006 line 785). -/
inductive Category where
  | operations
  | finance
  | client_management
  | vendor_relations
deriving DecidableEq, Repr, Fintype

/-- The category's string value, as stored in the `category` column and
compared against competency tags. -/
def catName : Category → String
  | .operations => "operations"
  | .finance => "finance"
  | .client_management => "client_management"
  | .vendor_relations => "vendor_relations"

/-- `const categories: Category[] = ['operations', 'finance',
'client_management', 'vendor_relations']` (part_006 line 957). -/
def categories : List Category :=
  [.operations, .finance, .client_management, .vendor_relations]

/-- `interface Runbook { id: string; category: Category; title: string }`
(part_006 lines 791-795). -/
structure Runbook where
  id : String
  category : Category
  title : String
deriving DecidableEq, Repr

/-- `interface User { id: string; competencies: string[] }`
(part_006 lines 797-800). -/
structure User where
  id : String
  competencies : List String
deriving DecidableEq, Repr

/-- `interface CompletedTask { runbook_id: string; assignee_id: string }`
(part_006 lines 802-805). -/
structure CompletedTask where
  runbook_id : String
  assignee_id : String
deriving DecidableEq, Repr

/-- `interface KnowledgeFragment { category: Category; user_id: string }`
(part_006 lines 807-810). -/
structure KnowledgeFragment where
  category : Category
  user_id : String
deriving DecidableEq, Repr

/-- One entry of `criticalGaps` (part_006 lines 965-969). -/
structure Gap where
  function : String
  singlePointOfFailure : String
  recommendedAction : String
deriving DecidableEq, Repr

/-- One entry of the `scores` record: `{ coverage: number; riskLevel:
RiskLevel }` (part_006 line 958). -/
structure CategoryScore where
  coverage : ℚ
  riskLevel : String
deriving DecidableEq, Repr

/-- The `scores` object literal with its four fixed keys
(part_006 lines 958-963). -/
structure Scores where
  operations : CategoryScore
  finance : CategoryScore
  client_management : CategoryScore
  vendor_relations : CategoryScore
deriving DecidableEq, Repr

/-- Reading `scores[cat]`. -/
def Scores.get (s : Scores) : Category → CategoryScore
  | .operations => s.operations
  | .finance => s.finance
  | .client_management => s.client_management
  | .vendor_relations => s.vendor_relations

/-- Writing `scores[cat] = v`. -/
def Scores.set (s : Scores) : Category → CategoryScore → Scores
  | .operations, v => { s with operations := v }
  | .finance, v => { s with finance := v }
  | .client_management, v => { s with client_management := v }
  | .vendor_relations, v => { s with vendor_relations := v }

/-- The initial `scores` value: every category starts at
`{ coverage: 0, riskLevel: 'critical' }` (part_006 lines 958-963). -/
def initialScores : Scores :=
  ⟨⟨0, "critical"⟩, ⟨0, "critical"⟩, ⟨0, "critical"⟩, ⟨0, "critical"⟩⟩

/-- `Set.add`: insert `x` if absent, keeping insertion order. -/
def insertUnique (l : List String) (x : String) : List String :=
  if x ∈ l then l else l ++ [x]

/-- Evidence source 1 (part_006 lines 926-933): for a runbook `rb`, the users
added because `comps.includes(rb.category) || comps.includes('all')`, in
`users` order. -/
def competencyPhase (users : List User) (rb : Runbook) : List String :=
  users.foldl
    (fun acc u =>
      if catName rb.category ∈ u.competencies ∨ "all" ∈ u.competencies then
        insertUnique acc u.id
      else acc)
    []

/-- Evidence sources 1-3 (part_006 lines 920-955): the verified-user set of a
catalog runbook `rb`, built from declared competencies, then completed tasks
(`task.runbook_id` hitting `rb.id`), then knowledge fragments whose category
matches `rb.category`. -/
def assembleTraining (users : List User) (tasks : List CompletedTask)
    (frags : List KnowledgeFragment) (rb : Runbook) : List String :=
  let s1 := competencyPhase users rb
  let s2 := tasks.foldl
    (fun acc tk =>
      if tk.runbook_id = rb.id then insertUnique acc tk.assignee_id else acc)
    s1
  users.foldl
    (fun acc u =>
      if frags.any (fun kf => kf.user_id = u.id ∧ kf.category = rb.category) then
        insertUnique acc u.id
      else acc)
    s2

/-- `runbooksByCategory[cat] || []` (part_006 lines 884-888): the grouping
`reduce` keeps the input order of `runbooks` inside each category, so the
group for `cat` is exactly the order-preserving filter. -/
def runbooksByCategory (runbooks : List Runbook) (cat : Category) : List Runbook :=
  runbooks.filter (fun rb => rb.category = cat)

/-- `runbookTraining.get(rb.id)?.size || 0` (part_006 line 992), for a
training map `training : String → List String`. -/
def trainedCount (training : String → List String) (rb : Runbook) : Nat :=
  (training rb.id).length

/-- Risk classification from coverage (part_006 lines 1022-1024):
`let riskLevel = 'low'; if (coverage < 0.5) riskLevel = 'critical';
else if (coverage < 0.8) riskLevel = 'high';`. -/
def riskOf (coverage : ℚ) : String :=
  if coverage < 0.5 then "critical"
  else if coverage < 0.8 then "high"
  else "low"

/-- The number of covered runbooks of a category: `covered++` for each runbook
with `trainedCount >= 2` (part_006 lines 988-996). -/
def coveredCount (training : String → List String) (catRunbooks : List Runbook) : Nat :=
  (catRunbooks.filter (fun rb => 2 ≤ trainedCount training rb)).length

/-- The score a category with at least one runbook receives
(part_006 lines 1021-1026); the zero-runbook branch (lines 977-978) assigns
`{ coverage: 0, riskLevel: 'critical' }` directly. -/
def categoryScore (training : String → List String) (catRunbooks : List Runbook) :
    CategoryScore :=
  if catRunbooks.length = 0 then ⟨0, "critical"⟩
  else
    let coverage : ℚ := (coveredCount training catRunbooks : ℚ) / (catRunbooks.length : ℚ)
    ⟨coverage, riskOf coverage⟩

/-- The gap pushed for a category with no runbooks (part_006 lines 979-983). -/
def noProcGap (cat : Category) : Gap :=
  { function := catName cat
    singlePointOfFailure := "No documented procedures exist for this function"
    recommendedAction := "Create emergency runbooks immediately" }

/-- The gap pushed for a runbook with `trainedCount < 2`
(part_006 lines 998-1014); `none` when `trainedCount >= 2`. -/
def gapFor (training : String → List String) (cat : Category) (rb : Runbook) :
    Option Gap :=
  let tc := trainedCount training rb
  if tc < 2 then
    some
      { function := catName cat ++ ": " ++ rb.title
        singlePointOfFailure :=
          if tc = 1 then
            "Single employee (" ++ (training rb.id).headD "" ++ ") has verified competency"
          else "No employees have verified competency"
        recommendedAction :=
          if tc = 1 then "Cross-train additional employee immediately"
          else "Assign and verify training for at least two employees" }
  else none

/-- The gap entries one category appends to `criticalGaps`, in push order
(part_006 lines 977-1014). -/
def categoryGaps (training : String → List String) (cat : Category)
    (catRunbooks : List Runbook) : List Gap :=
  if catRunbooks.length = 0 then [noProcGap cat]
  else catRunbooks.filterMap (gapFor training cat)

/-- One step of the running minimum (part_006 lines 1016-1018):
`if (trainedCount < globalMinTrained) globalMinTrained = trainedCount`, with
`none` playing `Infinity`. -/
def stepMin (cur : Option Nat) (tc : Nat) : Option Nat :=
  match cur with
  | none => some tc
  | some m => if tc < m then some tc else some m

/-- The value of `globalMinTrained` after one category: the zero-runbook
branch assigns `globalMinTrained = 0` (part_006 line 984), otherwise each
runbook's count is folded in (lines 1016-1018). -/
def categoryMin (training : String → List String) (catRunbooks : List Runbook)
    (cur : Option Nat) : Option Nat :=
  if catRunbooks.length = 0 then some 0
  else catRunbooks.foldl (fun c rb => stepMin c (trainedCount training rb)) cur

/-- The mutable state threaded through `categories.forEach`
(part_006 lines 958-971). -/
structure EngineState where
  scores : Scores
  criticalGaps : List Gap
  globalMinTrained : Option Nat

/-- One iteration of `categories.forEach(cat => ...)`
(part_006 lines 973-1027). -/
def processCategory (training : String → List String) (runbooks : List Runbook)
    (st : EngineState) (cat : Category) : EngineState :=
  let catRunbooks := runbooksByCategory runbooks cat
  { scores := st.scores.set cat (categoryScore training catRunbooks)
    criticalGaps := st.criticalGaps ++ categoryGaps training cat catRunbooks
    globalMinTrained := categoryMin training catRunbooks st.globalMinTrained }

/-- `busFactor = (globalMinTrained === Infinity || globalMinTrained === 0)
? 0 : globalMinTrained` (part_006 lines 1029-1034). -/
def finalBusFactor : Option Nat → Nat
  | none => 0
  | some m => if m = 0 then 0 else m

/-- The aggregate the handler computes and returns (scores, criticalGaps,
busFactor), before the caller attaches `analysisId`. -/
structure AnalysisResult where
  scores : Scores
  criticalGaps : List Gap
  busFactor : Nat
deriving DecidableEq, Repr

/-- The whole scoring pass (part_006 lines 957-1034) as a pure function of
the runbook snapshot and the verified-people map. -/
def runEngine (runbooks : List Runbook) (training : String → List String) :
    AnalysisResult :=
  let st := categories.foldl (processCategory training runbooks) ⟨initialScores, [], none⟩
  ⟨st.scores, st.criticalGaps, finalBusFactor st.globalMinTrained⟩

/-- The JSON body of the success response (part_006 lines 661-667 and the
cached branch 866-872): exactly the keys `analysisId`, `scores`,
`criticalGaps`, `busFactor`. -/
structure ApiResponse where
  analysisId : String
  scores : Scores
  criticalGaps : List Gap
  busFactor : Nat
deriving DecidableEq, Repr

/-- `NextResponse.json({ analysisId, scores, criticalGaps, busFactor })`:
the caller-assigned id attached to the engine's result. -/
def mkResponse (analysisId : String) (runbooks : List Runbook)
    (training : String → List String) : ApiResponse :=
  let r := runEngine runbooks training
  ⟨analysisId, r.scores, r.criticalGaps, r.busFactor⟩

/-- Position of a risk level in the severity order
`critical → high → low` (used to state that risk only moves toward `low`). -/
def riskRank (r : String) : Nat :=
  if r = "critical" then 0 else if r = "high" then 1 else 2

/-! ### Concrete sample snapshots (used to evaluate the engine on inputs) -/

/-- A snapshot with one runbook in each category. -/
def sampleR : List Runbook :=
  [⟨"r1", .operations, "Server restore"⟩,
   ⟨"r2", .finance, "Payroll run"⟩,
   ⟨"r3", .client_management, "Client escalation"⟩,
   ⟨"r4", .vendor_relations, "Vendor renewal"⟩]

/-- Verified-people sets for `sampleR`: counts 2, 1, 2, 2. -/
def sampleT : String → List String := fun s =>
  if s = "r1" then ["u1", "u2"]
  else if s = "r2" then ["u1"]
  else if s = "r3" then ["u2", "u3"]
  else if s = "r4" then ["u1", "u3"]
  else []

/-- Like `sampleT` but nobody is verified on `r4`. -/
def sampleT0 : String → List String := fun s =>
  if s = "r1" then ["u1", "u2"]
  else if s = "r2" then ["u1"]
  else if s = "r3" then ["u2", "u3"]
  else []

/-- A snapshot in which only `operations` has runbooks. -/
def sampleEmptyR : List Runbook := [⟨"r1", .operations, "Server restore"⟩]

/-- The C3 scenario: one category with 4 procedures. -/
def opsR : List Runbook :=
  [⟨"p1", .operations, "Server restore"⟩,
   ⟨"p2", .operations, "DNS failover"⟩,
   ⟨"p3", .operations, "Backup rotation"⟩,
   ⟨"p4", .operations, "Incident triage"⟩]

/-- Verified-people sets for `opsR` with counts 3, 1, 2, 0. -/
def opsT : String → List String := fun s =>
  if s = "p1" then ["u1", "u2", "u3"]
  else if s = "p2" then ["u1"]
  else if s = "p3" then ["u2", "u3"]
  else []

/-- Training sets with `r1` down to a single verified person. -/
def monoT : String → List String := fun s =>
  if s = "r1" then ["u1"]
  else if s = "r2" then ["u1", "u2"]
  else if s = "r3" then ["u2", "u3"]
  else if s = "r4" then ["u1", "u3"]
  else []

/-- `monoT` after cross-training `u9` on `r1`. -/
def monoT' : String → List String := fun s =>
  if s = "r1" then ["u1", "u9"]
  else if s = "r2" then ["u1", "u2"]
  else if s = "r3" then ["u2", "u3"]
  else if s = "r4" then ["u1", "u3"]
  else []

/-- Sample people for the evidence-assembly pipeline. -/
def sampleUsers : List User :=
  [⟨"u1", ["finance"]⟩, ⟨"u2", ["all"]⟩, ⟨"u3", ["operations", "finance"]⟩]

def sampleTasks : List CompletedTask := [⟨"r1", "u4"⟩]

def sampleFrags : List KnowledgeFragment := [⟨.operations, "u5"⟩]

/-! ### Structural lemmas: decomposing the `categories.forEach` fold -/

theorem scores_get_set_same (s : Scores) (c : Category) (v : CategoryScore) :
    (s.set c v).get c = v := by
  cases c <;> rfl

theorem scores_get_set_other (s : Scores) {c c' : Category} (v : CategoryScore)
    (h : c ≠ c') : (s.set c v).get c' = s.get c' := by
  cases c <;> cases c' <;> first | rfl | exact absurd rfl h

/-- The final `scores[cat]` is exactly the score computed during `cat`'s own
iteration: a pure function of that category's runbook group. -/
theorem runEngine_scores_get (R : List Runbook) (t : String → List String)
    (c : Category) :
    (runEngine R t).scores.get c = categoryScore t (runbooksByCategory R c) := by
  cases c <;>
    simp [runEngine, categories, processCategory, List.foldl,
      Scores.get, Scores.set]

/-- `criticalGaps` is the concatenation, in the fixed category order, of each
category's own gap list. -/
theorem runEngine_criticalGaps (R : List Runbook) (t : String → List String) :
    (runEngine R t).criticalGaps =
      (categories.map (fun c => categoryGaps t c (runbooksByCategory R c))).flatten := by
  simp [runEngine, categories, processCategory, List.foldl]

/-- `busFactor` comes from threading `globalMinTrained` through the four
categories in order, starting from `Infinity`. -/
theorem runEngine_busFactor (R : List Runbook) (t : String → List String) :
    (runEngine R t).busFactor =
      finalBusFactor
        (categoryMin t (runbooksByCategory R .vendor_relations)
          (categoryMin t (runbooksByCategory R .client_management)
            (categoryMin t (runbooksByCategory R .finance)
              (categoryMin t (runbooksByCategory R .operations) none)))) := by
  simp [runEngine, categories, processCategory, List.foldl]

/-! ### The running minimum -/

theorem stepMin_some (m tc : Nat) : stepMin (some m) tc = some (min m tc) := by
  simp only [stepMin]
  split
  · next h => rw [min_eq_right (Nat.le_of_lt h)]
  · next h => rw [min_eq_left (Nat.le_of_not_lt h)]

theorem foldl_min_le_init (r : List Nat) : ∀ a : Nat, r.foldl min a ≤ a := by
  induction r with
  | nil => intro a; simp
  | cons x xs ih =>
    intro a
    calc (x :: xs).foldl min a = xs.foldl min (min a x) := rfl
    _ ≤ min a x := ih (min a x)
    _ ≤ a := min_le_left a x

theorem foldl_min_le_mem (r : List Nat) :
    ∀ (a x : Nat), x ∈ r → r.foldl min a ≤ x := by
  induction r with
  | nil => intro a x hx; cases hx
  | cons y ys ih =>
    intro a x hx
    rcases List.mem_cons.mp hx with h | h
    · subst h
      calc (x :: ys).foldl min a = ys.foldl min (min a x) := rfl
      _ ≤ min a x := foldl_min_le_init ys (min a x)
      _ ≤ x := min_le_right a x
    · exact ih (min a y) x h

theorem foldl_min_mem (r : List Nat) :
    ∀ a : Nat, r.foldl min a = a ∨ r.foldl min a ∈ r := by
  induction r with
  | nil => intro a; left; rfl
  | cons y ys ih =>
    intro a
    rcases ih (min a y) with h | h
    · rcases Nat.le_total a y with hay | hya
      · left
        calc (y :: ys).foldl min a = ys.foldl min (min a y) := rfl
        _ = min a y := h
        _ = a := min_eq_left hay
      · right
        refine List.mem_cons.mpr (Or.inl ?_)
        calc (y :: ys).foldl min a = ys.foldl min (min a y) := rfl
        _ = min a y := h
        _ = y := min_eq_right hya
    · exact Or.inr (List.mem_cons.mpr (Or.inr h))

theorem foldl_stepMin_some (l : List Nat) :
    ∀ m : Nat, l.foldl stepMin (some m) = some (l.foldl min m) := by
  induction l with
  | nil => intro m; rfl
  | cons x xs ih =>
    intro m
    calc (x :: xs).foldl stepMin (some m) = xs.foldl stepMin (stepMin (some m) x) := rfl
    _ = xs.foldl stepMin (some (min m x)) := by rw [stepMin_some]
    _ = some (xs.foldl min (min m x)) := ih (min m x)
    _ = some ((x :: xs).foldl min m) := rfl

/-- Folding `stepMin` from `Infinity` over a non-empty count list yields the
minimum of the list: a member that bounds every member from below. -/
theorem foldl_stepMin_none (l : List Nat) (hl : l ≠ []) :
    ∃ m, l.foldl stepMin none = some m ∧ m ∈ l ∧ ∀ x ∈ l, m ≤ x := by
  match l, hl with
  | a :: r, _ =>
    refine ⟨r.foldl min a, ?_, ?_, ?_⟩
    · calc (a :: r).foldl stepMin none = r.foldl stepMin (some a) := rfl
      _ = some (r.foldl min a) := foldl_stepMin_some r a
    · rcases foldl_min_mem r a with h | h
      · rw [h]; exact List.mem_cons_self a r
      · exact List.mem_cons.mpr (Or.inr h)
    · intro x hx
      rcases List.mem_cons.mp hx with h | h
      · rw [h]; exact foldl_min_le_init r a
      · exact foldl_min_le_mem r a x h

/-- The four category groups laid end to end, in the fixed category order. -/
def groupedRunbooks (R : List Runbook) : List Runbook :=
  runbooksByCategory R .operations ++ runbooksByCategory R .finance ++
    runbooksByCategory R .client_management ++ runbooksByCategory R .vendor_relations

/-- Every runbook's category is one of the four enum values, so grouping by
category loses and invents nothing. -/
theorem mem_groupedRunbooks (R : List Runbook) (rb : Runbook) :
    rb ∈ groupedRunbooks R ↔ rb ∈ R := by
  constructor
  · intro h
    simp only [groupedRunbooks, List.mem_append, runbooksByCategory] at h
    rcases h with ((h | h) | h) | h <;> exact (List.mem_filter.mp h).1
  · intro h
    have hself : rb ∈ runbooksByCategory R rb.category := by
      simp [runbooksByCategory, List.mem_filter, h]
    simp only [groupedRunbooks, List.mem_append]
    cases hc : rb.category
    · exact Or.inl (Or.inl (Or.inl (hc ▸ hself)))
    · exact Or.inl (Or.inl (Or.inr (hc ▸ hself)))
    · exact Or.inl (Or.inr (hc ▸ hself))
    · exact Or.inr (hc ▸ hself)

theorem categoryMin_eq_foldl (t : String → List String) (l : List Runbook)
    (hl : l ≠ []) (g : Option Nat) :
    categoryMin t l g = (l.map (trainedCount t)).foldl stepMin g := by
  rw [categoryMin, if_neg (by simpa using hl), List.foldl_map]

theorem categoryMin_zero_absorb (t : String → List String) (l : List Runbook) :
    categoryMin t l (some 0) = some 0 := by
  by_cases hl : l = []
  · simp [categoryMin, hl]
  · rw [categoryMin_eq_foldl t l hl, foldl_stepMin_some]
    have h1 : (l.map (trainedCount t)).foldl min 0 ≤ 0 := foldl_min_le_init _ 0
    simp [Nat.le_zero.mp h1]

theorem categoryMin_empty (t : String → List String) (g : Option Nat) :
    categoryMin t [] g = some 0 := by
  simp [categoryMin]

theorem categoryMin_of_zero_count (t : String → List String) (l : List Runbook)
    (rb : Runbook) (hrb : rb ∈ l) (h0 : trainedCount t rb = 0) (g : Option Nat) :
    categoryMin t l g = some 0 := by
  have hl : l ≠ [] := List.ne_nil_of_mem hrb
  have hmem : 0 ∈ l.map (trainedCount t) :=
    List.mem_map.mpr ⟨rb, hrb, h0⟩
  rw [categoryMin_eq_foldl t l hl g]
  cases g with
  | none =>
    obtain ⟨m, hm, _, hlb⟩ := foldl_stepMin_none _ (List.ne_nil_of_mem hmem)
    rw [hm, Nat.le_zero.mp (hlb 0 hmem)]
  | some m₀ =>
    rw [foldl_stepMin_some]
    have := foldl_min_le_mem (l.map (trainedCount t)) m₀ 0 hmem
    simp [Nat.le_zero.mp this]

/-- **C1**: when each of the 4 fixed categories has at least one procedure and
every procedure has at least one verified person, `busFactor` is the minimum
verified-people count over every procedure (it is one of the counts and bounds
them all from below); if some category has zero procedures, or some procedure
has zero verified people, `busFactor` is `0`. -/
theorem claim_C1_busFactor_min (R : List Runbook) (t : String → List String) :
    ((∀ c : Category, runbooksByCategory R c ≠ []) →
      (∀ rb ∈ R, 1 ≤ trainedCount t rb) →
      (runEngine R t).busFactor ∈ R.map (trainedCount t) ∧
        ∀ rb ∈ R, (runEngine R t).busFactor ≤ trainedCount t rb) ∧
    ((∃ c : Category, runbooksByCategory R c = []) →
      (runEngine R t).busFactor = 0) ∧
    ((∃ rb ∈ R, trainedCount t rb = 0) → (runEngine R t).busFactor = 0) := by
  refine ⟨?_, ?_, ?_⟩
  · intro h1 h2
    rw [runEngine_busFactor]
    have key :
        categoryMin t (runbooksByCategory R .vendor_relations)
          (categoryMin t (runbooksByCategory R .client_management)
            (categoryMin t (runbooksByCategory R .finance)
              (categoryMin t (runbooksByCategory R .operations) none))) =
        ((groupedRunbooks R).map (trainedCount t)).foldl stepMin none := by
      rw [categoryMin_eq_foldl t _ (h1 .operations),
          categoryMin_eq_foldl t _ (h1 .finance),
          categoryMin_eq_foldl t _ (h1 .client_management),
          categoryMin_eq_foldl t _ (h1 .vendor_relations)]
      simp [groupedRunbooks, List.foldl_append]
    obtain ⟨rb₀, hrb₀⟩ :=
      List.exists_mem_of_ne_nil _ (h1 .operations)
    have hrb₀G : rb₀ ∈ groupedRunbooks R := by
      simp only [groupedRunbooks, List.mem_append]
      exact Or.inl (Or.inl (Or.inl hrb₀))
    have hGne : (groupedRunbooks R).map (trainedCount t) ≠ [] :=
      List.ne_nil_of_mem (List.mem_map.mpr ⟨rb₀, hrb₀G, rfl⟩)
    obtain ⟨m, hm, hmem, hlb⟩ := foldl_stepMin_none _ hGne
    rw [key, hm]
    obtain ⟨rb₁, hrb₁G, hrb₁m⟩ := List.mem_map.mp hmem
    have hrb₁R : rb₁ ∈ R := (mem_groupedRunbooks R rb₁).mp hrb₁G
    have h1m : 1 ≤ m := hrb₁m ▸ h2 rb₁ hrb₁R
    have hfb : finalBusFactor (some m) = m := by
      simp only [finalBusFactor]
      rw [if_neg (by omega)]
    rw [hfb]
    constructor
    · exact List.mem_map.mpr ⟨rb₁, hrb₁R, hrb₁m⟩
    · intro rb hrb
      exact hlb _ (List.mem_map.mpr ⟨rb, (mem_groupedRunbooks R rb).mpr hrb, rfl⟩)
  · rintro ⟨c, hc⟩
    rw [runEngine_busFactor]
    cases c
    · rw [hc, categoryMin_empty, categoryMin_zero_absorb, categoryMin_zero_absorb,
        categoryMin_zero_absorb]
      rfl
    · rw [hc, categoryMin_empty, categoryMin_zero_absorb, categoryMin_zero_absorb]
      rfl
    · rw [hc, categoryMin_empty, categoryMin_zero_absorb]
      rfl
    · rw [hc, categoryMin_empty]
      rfl
  · rintro ⟨rb, hrbR, h0⟩
    rw [runEngine_busFactor]
    have hself : rb ∈ runbooksByCategory R rb.category := by
      simp [runbooksByCategory, List.mem_filter, hrbR]
    cases hcat : rb.category
    all_goals rw [hcat] at hself
    · rw [categoryMin_of_zero_count t _ rb hself h0, categoryMin_zero_absorb,
        categoryMin_zero_absorb, categoryMin_zero_absorb]
      rfl
    · rw [categoryMin_of_zero_count t _ rb hself h0, categoryMin_zero_absorb,
        categoryMin_zero_absorb]
      rfl
    · rw [categoryMin_of_zero_count t _ rb hself h0, categoryMin_zero_absorb]
      rfl
    · rw [categoryMin_of_zero_count t _ rb hself h0]
      rfl

/-- **C1 witness**: on a snapshot with counts 2, 1, 2, 2 the bus factor is one
of the counts and a lower bound of them; an empty category forces 0; a
zero-count procedure forces 0. -/
theorem claim_C1_busFactor_min_witness :
    (runEngine sampleR sampleT).busFactor ∈ sampleR.map (trainedCount sampleT) ∧
    (runEngine sampleR sampleT).busFactor ≤
      trainedCount sampleT ⟨"r2", .finance, "Payroll run"⟩ ∧
    (runEngine sampleEmptyR sampleT).busFactor = 0 ∧
    (runEngine sampleR sampleT0).busFactor = 0 := by
  obtain ⟨hA, hB, hC⟩ := claim_C1_busFactor_min sampleR sampleT
  have hmain := hA (by decide) (by decide)
  refine ⟨hmain.1, hmain.2 _ (by decide), ?_, ?_⟩
  · exact (claim_C1_busFactor_min sampleEmptyR sampleT).2.1 ⟨.finance, by decide⟩
  · exact (claim_C1_busFactor_min sampleR sampleT0).2.2
      ⟨⟨"r4", .vendor_relations, "Vendor renewal"⟩, by decide, by decide⟩

/-- **C2**: for a category with at least one procedure, the assigned risk
level is exactly the fixed-threshold classification of its coverage ratio:
`< 0.5 → critical`, `< 0.8 → high`, otherwise `low`. -/
theorem claim_C2_risk_thresholds (R : List Runbook) (t : String → List String)
    (c : Category) (h : runbooksByCategory R c ≠ []) :
    ((runEngine R t).scores.get c).riskLevel =
      (if ((runEngine R t).scores.get c).coverage < 0.5 then "critical"
       else if ((runEngine R t).scores.get c).coverage < 0.8 then "high"
       else "low") := by
  rw [runEngine_scores_get]
  rw [categoryScore, if_neg (by simpa using h)]
  rfl

/-- Spelling out the non-empty branch of `categoryScore`. -/
theorem categoryScore_eval (t : String → List String) (l : List Runbook)
    (hl : ¬l.length = 0) :
    categoryScore t l =
      ⟨(coveredCount t l : ℚ) / (l.length : ℚ),
       riskOf ((coveredCount t l : ℚ) / (l.length : ℚ))⟩ := by
  rw [categoryScore, if_neg hl]

/-- **C2 witness**: on `sampleR`/`sampleT` the finance category (1 procedure,
1 verified person, coverage 0) classifies by the thresholds, i.e. critical. -/
theorem claim_C2_risk_thresholds_witness :
    ((runEngine sampleR sampleT).scores.get .finance).riskLevel = "critical" := by
  have hcov : ((runEngine sampleR sampleT).scores.get .finance).coverage = 0 := by
    rw [runEngine_scores_get, categoryScore_eval _ _ (by decide)]
    have hc : coveredCount sampleT (runbooksByCategory sampleR .finance) = 0 := by
      decide
    rw [hc]
    norm_num
  rw [claim_C2_risk_thresholds sampleR sampleT .finance (by decide), hcov,
    if_pos (by norm_num)]

/-- **C3**: on one category with verified counts `[3, 1, 2, 0]`: covered
count is 2, coverage is exactly `1/2`, risk is `"high"` (the `0.5` boundary is
not critical), the category produces exactly the two gaps for the count-1 and
count-0 procedures (and the full gap list holds exactly those two entries for
this category), and the category's contribution to the running bus-factor
minimum is `0`. -/
theorem claim_C3_boundary_scenario :
    coveredCount opsT (runbooksByCategory opsR .operations) = 2 ∧
    (runEngine opsR opsT).scores.get .operations = ⟨1/2, "high"⟩ ∧
    categoryGaps opsT .operations (runbooksByCategory opsR .operations) =
      [⟨"operations: DNS failover",
        "Single employee (u1) has verified competency",
        "Cross-train additional employee immediately"⟩,
       ⟨"operations: Incident triage",
        "No employees have verified competency",
        "Assign and verify training for at least two employees"⟩] ∧
    (runEngine opsR opsT).criticalGaps.countP
      (fun g => decide (g.function = "operations: DNS failover" ∨
        g.function = "operations: Incident triage")) = 2 ∧
    categoryMin opsT (runbooksByCategory opsR .operations) none = some 0 := by
  refine ⟨by decide, ?_, by decide, by decide, by decide⟩
  rw [runEngine_scores_get, categoryScore_eval _ _ (by decide)]
  have hc : coveredCount opsT (runbooksByCategory opsR .operations) = 2 := by decide
  have hl : (runbooksByCategory opsR .operations).length = 4 := by decide
  rw [hc, hl]
  have hcov : (((2 : Nat) : ℚ)) / (((4 : Nat) : ℚ)) = 1 / 2 := by norm_num
  rw [hcov, riskOf, if_neg (by norm_num), if_pos (by norm_num)]

/-- **C4**: the gap list is exactly the per-category gap lists laid out in
order; a category with procedures contributes exactly one entry per procedure
with fewer than 2 verified people and nothing else; a procedure with 2 or more
verified people yields no entry; with exactly one verified person `p` the
entry names `p` and recommends cross-training; with none it recommends
assigning and training two people. -/
theorem claim_C4_gap_membership (R : List Runbook) (t : String → List String) :
    ((runEngine R t).criticalGaps =
      (categories.map (fun c => categoryGaps t c (runbooksByCategory R c))).flatten) ∧
    (∀ c : Category, runbooksByCategory R c ≠ [] →
      categoryGaps t c (runbooksByCategory R c) =
        (runbooksByCategory R c).filterMap (gapFor t c)) ∧
    (∀ (c : Category) (rb : Runbook),
      (2 ≤ trainedCount t rb → gapFor t c rb = none) ∧
      (∀ p : String, t rb.id = [p] →
        gapFor t c rb = some
          ⟨catName c ++ ": " ++ rb.title,
           "Single employee (" ++ p ++ ") has verified competency",
           "Cross-train additional employee immediately"⟩) ∧
      (t rb.id = [] →
        gapFor t c rb = some
          ⟨catName c ++ ": " ++ rb.title,
           "No employees have verified competency",
           "Assign and verify training for at least two employees"⟩)) := by
  refine ⟨runEngine_criticalGaps R t, ?_, ?_⟩
  · intro c hc
    rw [categoryGaps, if_neg (by simpa using hc)]
  · intro c rb
    refine ⟨?_, ?_, ?_⟩
    · intro h2
      rw [gapFor]
      simp only [if_neg (by omega : ¬trainedCount t rb < 2)]
    · intro p hp
      have h1 : trainedCount t rb = 1 := by
        simp [trainedCount, hp]
      rw [gapFor]
      simp only [h1, hp]
      rfl
    · intro hp
      have h0 : trainedCount t rb = 0 := by
        simp [trainedCount, hp]
      rw [gapFor]
      simp only [h0, hp]
      rfl

/-- **C4 witness**: a 2-person procedure yields no gap; a 1-person procedure
yields the cross-training gap naming that person; a 0-person procedure yields
the assign-and-train gap. -/
theorem claim_C4_gap_membership_witness :
    gapFor sampleT .operations ⟨"r1", .operations, "Server restore"⟩ = none ∧
    gapFor sampleT .finance ⟨"r2", .finance, "Payroll run"⟩ = some
      ⟨"finance: Payroll run",
       "Single employee (u1) has verified competency",
       "Cross-train additional employee immediately"⟩ ∧
    gapFor sampleT0 .vendor_relations ⟨"r4", .vendor_relations, "Vendor renewal"⟩ =
      some
        ⟨"vendor_relations: Vendor renewal",
         "No employees have verified competency",
         "Assign and verify training for at least two employees"⟩ := by
  obtain ⟨-, -, h3⟩ := claim_C4_gap_membership sampleR sampleT
  obtain ⟨-, -, h3'⟩ := claim_C4_gap_membership sampleR sampleT0
  refine ⟨(h3 .operations _).1 (by decide), ?_, ?_⟩
  · exact (h3 .finance ⟨"r2", .finance, "Payroll run"⟩).2.1 "u1" (by decide)
  · exact (h3' .vendor_relations ⟨"r4", .vendor_relations, "Vendor renewal"⟩).2.2
      (by decide)

theorem catName_injective : ∀ a b : Category, catName a = catName b → a = b := by
  decide

theorem gapFor_recommendedAction (t : String → List String) (c : Category)
    (l : List Runbook) (g : Gap) (hg : g ∈ l.filterMap (gapFor t c)) :
    g.recommendedAction = "Cross-train additional employee immediately" ∨
    g.recommendedAction = "Assign and verify training for at least two employees" := by
  obtain ⟨rb, -, hrb⟩ := List.mem_filterMap.mp hg
  rw [gapFor] at hrb
  split at hrb
  · rw [Option.some.injEq] at hrb
    subst hrb
    split
    · exact Or.inl rfl
    · exact Or.inr rfl
  · cases hrb

/-- A category's gap list never contains the "no documented procedures" gap of
a different category. -/
theorem countP_noProc_ne (t : String → List String) {c c' : Category}
    (h : c' ≠ c) (l : List Runbook) :
    (categoryGaps t c' l).countP (fun g => decide (g = noProcGap c)) = 0 := by
  rw [List.countP_eq_zero]
  intro g hg
  simp only [decide_eq_true_eq]
  intro hgc
  rw [categoryGaps] at hg
  split at hg
  · rw [List.mem_singleton] at hg
    subst hg
    exact h (catName_injective c' c (congrArg Gap.function hgc))
  · have hmem := gapFor_recommendedAction t c' l g hg
    rw [hgc] at hmem
    simp only [noProcGap] at hmem
    rcases hmem with h' | h' <;> exact absurd h' (by decide)

theorem countP_noProc_self (t : String → List String) (c : Category) :
    (categoryGaps t c []).countP (fun g => decide (g = noProcGap c)) = 1 := by
  rw [categoryGaps]
  simp

/-- **C5**: every one of the 4 fixed categories is a key of the `scores` map,
and a category with zero procedures scores coverage `0` with risk
`"critical"` and places exactly one "no documented procedures" gap in
`criticalGaps`. -/
theorem claim_C5_empty_category (R : List Runbook) (t : String → List String) :
    (∀ c : Category, c ∈ categories) ∧
    (∀ c : Category, runbooksByCategory R c = [] →
      (runEngine R t).scores.get c = ⟨0, "critical"⟩ ∧
      (runEngine R t).criticalGaps.countP (fun g => decide (g = noProcGap c)) = 1) := by
  constructor
  · intro c
    cases c <;> simp [categories]
  · intro c hc
    constructor
    · rw [runEngine_scores_get, hc, categoryScore]
      rfl
    · rw [runEngine_criticalGaps]
      simp only [categories, List.map_cons, List.map_nil, List.flatten_cons,
        List.flatten_nil, List.append_nil, List.countP_append]
      cases c
      · rw [hc, countP_noProc_self, countP_noProc_ne t (by decide),
          countP_noProc_ne t (by decide), countP_noProc_ne t (by decide)]
      · rw [hc, countP_noProc_self, countP_noProc_ne t (by decide),
          countP_noProc_ne t (by decide), countP_noProc_ne t (by decide)]
      · rw [hc, countP_noProc_self, countP_noProc_ne t (by decide),
          countP_noProc_ne t (by decide), countP_noProc_ne t (by decide)]
      · rw [hc, countP_noProc_self, countP_noProc_ne t (by decide),
          countP_noProc_ne t (by decide), countP_noProc_ne t (by decide)]

/-- **C5 witness**: with runbooks only in operations, the finance entry is
coverage 0 / critical and its "no documented procedures" gap appears exactly
once. -/
theorem claim_C5_empty_category_witness :
    Category.finance ∈ categories ∧
    (runEngine sampleEmptyR sampleT).scores.get .finance = ⟨0, "critical"⟩ ∧
    (runEngine sampleEmptyR sampleT).criticalGaps.countP
      (fun g => decide (g = noProcGap .finance)) = 1 := by
  obtain ⟨h1, h2⟩ := claim_C5_empty_category sampleEmptyR sampleT
  exact ⟨h1 .finance, h2 .finance (by decide)⟩

/-- **C6**: the engine is deterministic: two invocations on the same snapshot
(same runbooks, same verified-people sets) yield identical `scores`,
identical `criticalGaps` in the same order, and an identical `busFactor`
(analysis id and timestamps are attached by the caller and are outside the
engine). -/
theorem claim_C6_deterministic (R₁ R₂ : List Runbook)
    (t₁ t₂ : String → List String) (hR : R₁ = R₂) (ht : ∀ s, t₁ s = t₂ s) :
    (runEngine R₁ t₁).scores = (runEngine R₂ t₂).scores ∧
    (runEngine R₁ t₁).criticalGaps = (runEngine R₂ t₂).criticalGaps ∧
    (runEngine R₁ t₁).busFactor = (runEngine R₂ t₂).busFactor := by
  have ht' : t₁ = t₂ := funext ht
  subst hR ht'
  exact ⟨rfl, rfl, rfl⟩

/-- **C6 witness**: two runs on the `sampleR`/`sampleT` snapshot agree. -/
theorem claim_C6_deterministic_witness :
    (runEngine sampleR sampleT).scores = (runEngine sampleR sampleT).scores ∧
    (runEngine sampleR sampleT).criticalGaps =
      (runEngine sampleR sampleT).criticalGaps ∧
    (runEngine sampleR sampleT).busFactor = (runEngine sampleR sampleT).busFactor :=
  claim_C6_deterministic sampleR sampleR sampleT sampleT rfl (fun _ => rfl)

/-- **C7**: the response is exactly `{ analysisId, scores, criticalGaps,
busFactor }` (the `ApiResponse` structure has no other field): the id is the
caller-assigned one, the other three components are the engine's, every one
of the 4 category entries carries a risk level inside the 3-value string enum,
and `busFactor` is a non-negative integer. -/
theorem claim_C7_response_contract (aid : String) (R : List Runbook)
    (t : String → List String) :
    (mkResponse aid R t).analysisId = aid ∧
    (mkResponse aid R t).scores = (runEngine R t).scores ∧
    (mkResponse aid R t).criticalGaps = (runEngine R t).criticalGaps ∧
    (mkResponse aid R t).busFactor = (runEngine R t).busFactor ∧
    (∀ c : Category,
      ((mkResponse aid R t).scores.get c).riskLevel ∈
        (["low", "high", "critical"] : List String)) ∧
    0 ≤ (mkResponse aid R t).busFactor := by
  refine ⟨rfl, rfl, rfl, rfl, ?_, Nat.zero_le _⟩
  intro c
  show ((runEngine R t).scores.get c).riskLevel ∈ _
  rw [runEngine_scores_get]
  by_cases h : (runbooksByCategory R c).length = 0
  · rw [categoryScore, if_pos h]
    simp
  · rw [categoryScore_eval _ _ h]
    simp only [riskOf]
    split
    · simp
    · split <;> simp

/-- **C10**: `criticalGaps` is ordered by category in the fixed order
operations, finance, client_management, vendor_relations; inside one category
the per-procedure gaps follow the input order of that category's procedures
(`filterMap` over the order-preserving filter); a category with zero
procedures contributes its single "no documented procedures" gap at its
position. -/
theorem claim_C10_gap_order (R : List Runbook) (t : String → List String) :
    (runEngine R t).criticalGaps =
      (categories.map (fun c =>
        if (R.filter (fun rb => rb.category = c)).length = 0 then [noProcGap c]
        else (R.filter (fun rb => rb.category = c)).filterMap (gapFor t c))).flatten := by
  rw [runEngine_criticalGaps]
  simp only [categoryGaps, runbooksByCategory]

theorem coveredCount_mono (t t' : String → List String) (l : List Runbook)
    (h : ∀ rb ∈ l, trainedCount t rb ≤ trainedCount t' rb) :
    coveredCount t l ≤ coveredCount t' l := by
  induction l with
  | nil => exact Nat.le_refl _
  | cons rb rest ih =>
    have hr := h rb (List.mem_cons_self rb rest)
    have ih' := ih (fun x hx => h x (List.mem_cons_of_mem rb hx))
    simp only [coveredCount, List.filter_cons] at ih' ⊢
    by_cases h2 : 2 ≤ trainedCount t rb
    · rw [if_pos (by simpa using h2), if_pos (by simpa using le_trans h2 hr)]
      simpa using ih'
    · rw [if_neg (by simpa using h2)]
      split
      · simp only [List.length_cons]
        omega
      · exact ih'

theorem riskRank_riskOf_mono {q q' : ℚ} (h : q ≤ q') :
    riskRank (riskOf q) ≤ riskRank (riskOf q') := by
  simp only [riskOf]
  split_ifs <;> first | decide | linarith

/-- **C8**: cross-training a second person onto a procedure that has exactly
one verified person never lowers the owning category's coverage ratio, and
can only move the category's risk level toward `"low"` in the severity order
critical → high → low. -/
theorem claim_C8_coverage_monotone (R : List Runbook)
    (t t' : String → List String) (rb₀ : Runbook) (p : String)
    (hmem : rb₀ ∈ R)
    (hone : trainedCount t rb₀ = 1)
    (hnew : p ∉ t rb₀.id)
    (hadd : t' rb₀.id = t rb₀.id ++ [p])
    (hother : ∀ s, s ≠ rb₀.id → t' s = t s) :
    ((runEngine R t).scores.get rb₀.category).coverage ≤
      ((runEngine R t').scores.get rb₀.category).coverage ∧
    riskRank ((runEngine R t).scores.get rb₀.category).riskLevel ≤
      riskRank ((runEngine R t').scores.get rb₀.category).riskLevel := by
  have hl : rb₀ ∈ runbooksByCategory R rb₀.category := by
    simp [runbooksByCategory, List.mem_filter, hmem]
  have hlen : ¬(runbooksByCategory R rb₀.category).length = 0 := by
    simpa [List.length_eq_zero] using List.ne_nil_of_mem hl
  have hcc : ∀ rb : Runbook, trainedCount t rb ≤ trainedCount t' rb := by
    intro rb
    by_cases hid : rb.id = rb₀.id
    · simp [trainedCount, hid, hadd]
    · rw [trainedCount, trainedCount, hother rb.id hid]
  have hcov : coveredCount t (runbooksByCategory R rb₀.category) ≤
      coveredCount t' (runbooksByCategory R rb₀.category) :=
    coveredCount_mono t t' _ (fun rb _ => hcc rb)
  have hpos : (0 : ℚ) < ((runbooksByCategory R rb₀.category).length : ℚ) := by
    have := Nat.pos_of_ne_zero (fun h => hlen h)
    exact_mod_cast this
  have hcovQ : ((coveredCount t (runbooksByCategory R rb₀.category) : ℚ)) ≤
      ((coveredCount t' (runbooksByCategory R rb₀.category) : ℚ)) := by
    exact_mod_cast hcov
  have hdiv :
      ((coveredCount t (runbooksByCategory R rb₀.category) : ℚ)) /
        ((runbooksByCategory R rb₀.category).length : ℚ) ≤
      ((coveredCount t' (runbooksByCategory R rb₀.category) : ℚ)) /
        ((runbooksByCategory R rb₀.category).length : ℚ) :=
    div_le_div_of_nonneg_right hcovQ (le_of_lt hpos)
  rw [runEngine_scores_get, runEngine_scores_get,
    categoryScore_eval _ _ hlen, categoryScore_eval _ _ hlen]
  exact ⟨hdiv, riskRank_riskOf_mono hdiv⟩

/-- **C8 witness**: on `sampleR`, cross-training `u9` onto `r1` (previously
only `u1`) weakly raises operations coverage and weakly raises the risk rank
toward `"low"`. -/
theorem claim_C8_coverage_monotone_witness :
    ((runEngine sampleR monoT).scores.get .operations).coverage ≤
      ((runEngine sampleR monoT').scores.get .operations).coverage ∧
    riskRank ((runEngine sampleR monoT).scores.get .operations).riskLevel ≤
      riskRank ((runEngine sampleR monoT').scores.get .operations).riskLevel := by
  have h := claim_C8_coverage_monotone sampleR monoT monoT'
    ⟨"r1", .operations, "Server restore"⟩ "u9" (by decide) (by decide) (by decide)
    (by decide) (by intro s hs; simp [monoT, monoT', hs])
  exact h

theorem mem_insertUnique_self (l : List String) (x : String) :
    x ∈ insertUnique l x := by
  rw [insertUnique]
  split
  · assumption
  · simp

theorem mem_insertUnique_of_mem (l : List String) (x y : String) (h : x ∈ l) :
    x ∈ insertUnique l y := by
  rw [insertUnique]
  split
  · exact h
  · exact List.mem_append_left _ h

/-- A fold whose step only ever inserts keeps existing members. -/
theorem mem_foldl_step {α : Type} (g : List String → α → List String)
    (hg : ∀ acc a x, x ∈ acc → x ∈ g acc a) (l : List α) :
    ∀ (acc : List String) (x : String), x ∈ acc → x ∈ l.foldl g acc := by
  induction l with
  | nil => intro acc x hx; exact hx
  | cons a as ih => intro acc x hx; exact ih (g acc a) x (hg acc a x hx)

/-- If some list element satisfies the guard, its key ends up in the
guarded-insert fold. -/
theorem mem_foldl_insert {α : Type} (p : α → Prop) [DecidablePred p]
    (f : α → String) (l : List α) (a : α) (ha : a ∈ l) (hpa : p a) :
    ∀ acc : List String,
      f a ∈ l.foldl (fun acc b => if p b then insertUnique acc (f b) else acc) acc := by
  induction l with
  | nil => cases ha
  | cons b bs ih =>
    intro acc
    rcases List.mem_cons.mp ha with h | h
    · subst h
      simp only [List.foldl_cons, if_pos hpa]
      exact mem_foldl_step _
        (fun acc c x hx => by
          split
          · exact mem_insertUnique_of_mem _ _ _ hx
          · exact hx)
        bs _ _ (mem_insertUnique_self acc (f a))
    · rw [List.foldl_cons]
      exact ih h _

/-- **C9**: in the competency evidence phase, a person whose competency list
contains `"all"` is verified on every catalog procedure regardless of its
category, and so is a person whose list contains the procedure's own category
tag; both survive the later task and knowledge-fragment phases into the final
verified set. -/
theorem claim_C9_all_competency (users : List User) (tasks : List CompletedTask)
    (frags : List KnowledgeFragment) (rb : Runbook) (u : User) (hu : u ∈ users) :
    ("all" ∈ u.competencies →
      u.id ∈ competencyPhase users rb ∧
      u.id ∈ assembleTraining users tasks frags rb) ∧
    (catName rb.category ∈ u.competencies →
      u.id ∈ competencyPhase users rb ∧
      u.id ∈ assembleTraining users tasks frags rb) := by
  have hstep2 : ∀ (acc : List String) (tk : CompletedTask) (x : String), x ∈ acc →
      x ∈ (if tk.runbook_id = rb.id then insertUnique acc tk.assignee_id else acc) := by
    intro acc tk x hx
    split
    · exact mem_insertUnique_of_mem _ _ _ hx
    · exact hx
  have hstep3 : ∀ (acc : List String) (v : User) (x : String), x ∈ acc →
      x ∈ (if frags.any (fun kf => kf.user_id = v.id ∧ kf.category = rb.category) then
        insertUnique acc v.id else acc) := by
    intro acc v x hx
    split
    · exact mem_insertUnique_of_mem _ _ _ hx
    · exact hx
  have hpush : u.id ∈ competencyPhase users rb →
      u.id ∈ assembleTraining users tasks frags rb := by
    intro h1
    rw [assembleTraining]
    exact mem_foldl_step _ hstep3 users _ _
      (mem_foldl_step _ hstep2 tasks _ _ h1)
  constructor
  · intro hall
    have h1 : u.id ∈ competencyPhase users rb := by
      rw [competencyPhase]
      exact mem_foldl_insert
        (fun v : User => catName rb.category ∈ v.competencies ∨ "all" ∈ v.competencies)
        User.id users u hu (Or.inr hall) []
    exact ⟨h1, hpush h1⟩
  · intro hcat
    have h1 : u.id ∈ competencyPhase users rb := by
      rw [competencyPhase]
      exact mem_foldl_insert
        (fun v : User => catName rb.category ∈ v.competencies ∨ "all" ∈ v.competencies)
        User.id users u hu (Or.inl hcat) []
    exact ⟨h1, hpush h1⟩

/-- **C9 witness**: `u2` (competencies `["all"]`) is verified on a
vendor-relations runbook; `u3` (competencies containing `"operations"`) is
verified on an operations runbook. -/
theorem claim_C9_all_competency_witness :
    ("u2" : String) ∈ assembleTraining sampleUsers sampleTasks sampleFrags
      ⟨"r9", .vendor_relations, "Contract review"⟩ ∧
    ("u3" : String) ∈ assembleTraining sampleUsers sampleTasks sampleFrags
      ⟨"r1", .operations, "Server restore"⟩ := by
  constructor
  · exact ((claim_C9_all_competency sampleUsers sampleTasks sampleFrags
      ⟨"r9", .vendor_relations, "Contract review"⟩ ⟨"u2", ["all"]⟩ (by decide)).1
      (by decide)).2
  · exact ((claim_C9_all_competency sampleUsers sampleTasks sampleFrags
      ⟨"r1", .operations, "Server restore"⟩ ⟨"u3", ["operations", "finance"]⟩
      (by decide)).2 (by decide)).2
